import Mathlib

/-!
Verification development for the Smart_sity traffic-control harness.

The definitions below are shallow embeddings of the Python sources under
`scripts/utils` and `scripts/utils_traci` (state discretization and Q-learning
agent from `q_learning.py` and `sumo_utils.py`, the safe-call wrapper from
`safe_traci.py`, edge aggregation from `metrics_cache.py`, the accident
manager from `accident_utils.py`, and the interactive session loop from
`start_sim_gui.py`).  Simulator (TraCI) reads are passed in as explicit
arguments or as an `Env` record of query functions; simulator commands are
recorded as an explicit effect trace.  Python floats are modelled as `Rat`,
Python ints as `Int`/`Nat`.
-/

namespace SmartSity

/-! ### State discretization (`utils/q_learning.py`, `utils/sumo_utils.py`) -/

/-- The three queue categories used by `data2queue_categories`. -/
inductive QueueCat where
  | Low
  | Medium
  | High
deriving DecidableEq

/-- First component of a state tuple.  In the Python code a state is a plain
tuple whose head is either a phase RYG string (as produced by
`create_state_table`, which iterates the `phase.state` strings returned by
`get_all_tls_phases`) or an integer phase index (as produced by
`create_state_for_tls` via `traci.trafficlight.getPhase`).  A string and an
integer are never equal in Python, which this sum type reflects. -/
inductive PhaseKey where
  | str (s : String)
  | idx (n : Nat)
deriving DecidableEq

/-- A discretized state `(phase, queue_cat_1, ..., queue_cat_N)`. -/
structure TLSState where
  phase : PhaseKey
  queues : List QueueCat
deriving DecidableEq

/-- `queue_categories = ['Low', 'Medium', 'High']` in `create_state_table`. -/
def queue_categories : List QueueCat := [QueueCat.Low, QueueCat.Medium, QueueCat.High]

/-- `itertools.product(queue_categories, repeat=n)`: all length-`n` tuples of
queue categories, first coordinate varying slowest. -/
def combinations_of_queues : Nat → List (List QueueCat)
  | 0 => [[]]
  | Nat.succ n =>
      queue_categories.flatMap (fun q => (combinations_of_queues n).map (fun c => q :: c))

/-- `create_state_table(tls_id, controlled_edges)`: for every phase (an RYG
state string from `get_all_tls_phases`) and every combination of queue
categories over the controlled edges, the state `(phase,) + combination`.
The phases list and the controlled-edge list stand for the TraCI reads. -/
def create_state_table (phases : List String) (controlled_edges : List String) :
    List TLSState :=
  phases.flatMap (fun p =>
    (combinations_of_queues controlled_edges.length).map
      (fun c => TLSState.mk (PhaseKey.str p) c))

/-- `data2queue_categories(controlled_edges)`: thresholds `<10` → Low,
`<30` → Medium, else High, applied to the waiting time of each edge in order.
The waiting times stand for the `traci.edge.getWaitingTime` reads. -/
def data2queue_categories (waits : List ℚ) : List QueueCat :=
  waits.map (fun w =>
    if w < 10 then QueueCat.Low else if w < 30 then QueueCat.Medium else QueueCat.High)

/-- `create_state_for_tls(tls_id, controlled_edges)`:
`(current_phase_index,) + tuple(queue categories)`, where the phase index is
the integer returned by `traci.trafficlight.getPhase`. -/
def create_state_for_tls (current_phase_index : Nat) (waits : List ℚ) : TLSState :=
  TLSState.mk (PhaseKey.idx current_phase_index) (data2queue_categories waits)

/-! ### `QLearningAgent` (`utils/q_learning.py`) -/

/-- The accumulator loop of `choose_action`'s greedy branch: running maximum
(`None` standing for the initial `-np.inf`) and list of best actions. -/
def best_actions_aux : List (Int × ℚ) → Option ℚ → List Int → Option ℚ × List Int
  | [], m, best => (m, best)
  | (a, q) :: rest, none, _ => best_actions_aux rest (some q) [a]
  | (a, q) :: rest, some mq, best =>
      if mq < q then best_actions_aux rest (some q) [a]
      else if q = mq then best_actions_aux rest (some mq) (best ++ [a])
      else best_actions_aux rest (some mq) best

/-- The `best_actions` list built by `choose_action` from the per-state
action→value items. -/
def best_actions (qs : List (Int × ℚ)) : List Int :=
  (best_actions_aux qs none []).2

/-- `choose_action(state)`.  The two random draws are passed explicitly:
`u` is the `np.random.uniform(0, 1)` sample and `pick` selects the element
returned by `np.random.choice` from the relevant list. -/
def choose_action (epsilon : ℚ) (u : ℚ) (pick : Nat) (actions : List Int)
    (qs : List (Int × ℚ)) : Option Int :=
  if u < epsilon then actions.get? (pick % actions.length)
  else (best_actions qs).get? (pick % (best_actions qs).length)

/-- The value written by `update_q_table`:
`current_q + lr * (reward + gamma * max_q_next - current_q)`. -/
def update_q_table (lr gamma current_q reward max_q_next : ℚ) : ℚ :=
  current_q + lr * (reward + gamma * max_q_next - current_q)

/-- Repeated application of `update_q_table` to the same `(s, a, r, s')` with
learning rate `0.1` and discount factor `0.9`, the next-state maximum `m`
held constant. -/
def q_iter (reward m q0 : ℚ) : Nat → ℚ
  | 0 => q0
  | Nat.succ n => update_q_table (1/10) (9/10) (q_iter reward m q0 n) reward m

/-! ### Safe-call wrapper (`utils/safe_traci.py`) -/

/-- Outcome of a wrapped protocol operation: a value, the distinguished
`FatalTraCIError`, or any other exception. -/
inductive CallOutcome (α : Type) where
  | ok (val : α)
  | fatal
  | exn
deriving DecidableEq

/-- `safe_traci_call(fn, *args, swallow=True, default=None)`: re-raises
`FatalTraCIError`, returns `default` on any other exception when `swallow`
is set, re-raises otherwise, and passes a successful result through. -/
def safe_traci_call {α : Type} (call : CallOutcome α) (swallow : Bool)
    (default : α) : CallOutcome α :=
  match call with
  | CallOutcome.ok v => CallOutcome.ok v
  | CallOutcome.fatal => CallOutcome.fatal
  | CallOutcome.exn => if swallow then CallOutcome.ok default else CallOutcome.exn

/-! ### Metrics cache edge aggregation (`utils/metrics_cache.py`) -/

/-- One lane's per-step readings `{veh, speed, halting, occ}` as stored in
`RewardMetricsCache._lane_stats` by `update_from_subscriptions`. -/
structure LaneStats where
  veh : Nat
  speed : ℚ
  halting : Nat
  occ : ℚ
deriving DecidableEq

/-- An edge-level aggregate `{veh, halting, speed, occ}` as stored in
`RewardMetricsCache._edge_stats` (`waiting_mean` is filled from the separate
waiting cache and is not part of this aggregation). -/
structure EdgeAgg where
  veh : Nat
  halting : Nat
  speed : ℚ
  occ : ℚ
deriving DecidableEq

/-- Accumulator of the per-edge aggregation loop in
`update_from_subscriptions`. -/
structure EdgeAcc where
  veh_sum : Nat
  halt_sum : Nat
  speed_num : ℚ
  speed_den : Nat
  occ_sum : ℚ
  occ_cnt : Nat

/-- One iteration of the aggregation loop body. -/
def edge_acc_step (st : EdgeAcc) (s : LaneStats) : EdgeAcc :=
  { veh_sum := st.veh_sum + s.veh
    halt_sum := st.halt_sum + s.halting
    speed_num := st.speed_num + (if 0 < s.veh then s.speed * (s.veh : ℚ) else 0)
    speed_den := st.speed_den + (if 0 < s.veh then s.veh else 0)
    occ_sum := st.occ_sum + s.occ
    occ_cnt := st.occ_cnt + 1 }

/-- The edge aggregation of `update_from_subscriptions`: sums for `veh` and
`halting`, vehicle-count-weighted mean for `speed` (`0` when the weight is
zero, matching Python's `(speed_den and (speed_num / speed_den)) or 0.0`),
arithmetic mean over the lanes for `occ`.  The input list holds the stats of
the edge's lanes that are present in `_lane_stats`. -/
def aggregate_edge (lanes : List LaneStats) : EdgeAgg :=
  let a := lanes.foldl edge_acc_step (EdgeAcc.mk 0 0 0 0 0 0)
  { veh := a.veh_sum
    halting := a.halt_sum
    speed := if a.speed_den = 0 then 0 else a.speed_num / (a.speed_den : ℚ)
    occ := if a.occ_cnt = 0 then 0 else a.occ_sum / (a.occ_cnt : ℚ) }

/-! ### Accident manager (`utils/accident_utils.py`)

TraCI queries are abstracted into an `Env` record of read-only functions and
TraCI mutations into an explicit `Effect` trace; random draws
(`rng.random()`, `rng.choice`, `rng.randint`) are passed in explicitly. -/

/-- String constants for the two accident modes. -/
def modeLaneBlock : String := "lane_block"

/-- See `modeLaneBlock`. -/
def modeObstacle : String := "obstacle"

/-- The lane-id separator used by `_lane_index_from_id` / `edge_from_lane`. -/
def underscoreStr : String := "_"

/-- The prefix marking internal junction lanes/edges. -/
def colonStr : String := ":"

/-- The empty string (a falsy marker id). -/
def emptyStr : String := ""

/-- ASCII lowercase of one character.  (`str.lower()` restricted to the
ASCII range; every identifier and mode string this system handles is
ASCII.) -/
def charLower (c : Char) : Char :=
  if c = 'A' then 'a' else if c = 'B' then 'b' else if c = 'C' then 'c'
  else if c = 'D' then 'd' else if c = 'E' then 'e' else if c = 'F' then 'f'
  else if c = 'G' then 'g' else if c = 'H' then 'h' else if c = 'I' then 'i'
  else if c = 'J' then 'j' else if c = 'K' then 'k' else if c = 'L' then 'l'
  else if c = 'M' then 'm' else if c = 'N' then 'n' else if c = 'O' then 'o'
  else if c = 'P' then 'p' else if c = 'Q' then 'q' else if c = 'R' then 'r'
  else if c = 'S' then 's' else if c = 'T' then 't' else if c = 'U' then 'u'
  else if c = 'V' then 'v' else if c = 'W' then 'w' else if c = 'X' then 'x'
  else if c = 'Y' then 'y' else if c = 'Z' then 'z' else c

/-- Python `s.lower()` (ASCII). -/
def pyLower (s : String) : String := String.mk (s.data.map charLower)

/-- Python `s.startswith(pre)`. -/
def pyStartsWith (s pre : String) : Bool := pre.data.isPrefixOf s.data

/-- The `Accident` dataclass (marker coordinates, which are display-only
floats, are not modelled). -/
structure Accident where
  lane_id : String
  start_step : Int
  end_step : Int
  prev_max_speed : ℚ
  prev_allowed : Option (List String)
  obstacle_veh_id : Option String := none
  obstacle_edge_id : Option String := none
  obstacle_pos : Option ℚ := none
  obstacle_lane_index : Option Nat := none
  marker_poi_id : Option String := none
deriving DecidableEq

/-- Read-only view of the simulator consumed by the accident manager.
An `Option` result of `none` stands for the underlying TraCI call raising
(every such call site is wrapped in `try/except` in the source). -/
structure Env where
  laneExists : String → Bool
  edgeOf : String → Option String
  laneNumber : String → Option Nat
  prevSpeed : String → ℚ
  prevAllowed : String → Option (List String)
  vehExists : String → Bool
  poiExists : String → Bool
  obstacleSpawnOk : String → Bool
  obstacleVehId : String → String
  obstaclePos : String → ℚ
  markerPoi : String → Option String
  simTime : Int
  convertRoad : ℚ × ℚ → Option (String × ℚ × Nat)

/-- The random draws consumed by one `step()` call. -/
structure StepRng where
  u : ℚ
  pickIdx : Nat
  dur : Int
deriving DecidableEq

/-- Mutating TraCI commands issued by the accident manager, recorded as a
trace. -/
inductive Effect where
  | restoreLane (lane : String) (speed : ℚ) (allowed : Option (List String))
  | despawnObstacle (veh : String)
  | removeMarker (poi : String)
  | applyLaneBlock (lane : String)
  | spawnObstacle (lane : String) (veh : String)
  | addMarker (poi : String)
deriving DecidableEq

/-- The manager's mutable state and configuration (marker appearance
parameters are display-only and not modelled). -/
structure AccidentManager where
  lane_candidates : List String
  mode : String
  prob : ℚ
  min_dur : Int
  max_dur : Int
  max_concurrent : Nat
  enable_markers : Bool
  active : List Accident
deriving DecidableEq

/-- `_restore_lane_state`: restore the saved max-speed and allowed classes
when the lane still exists (Python writes `[]` for a saved `None`; the
effect carries the saved value). -/
def restore_lane_state (env : Env) (acc : Accident) : List Effect :=
  if env.laneExists acc.lane_id then
    [Effect.restoreLane acc.lane_id acc.prev_max_speed acc.prev_allowed]
  else []

/-- `_despawn_obstacle`: remove the vehicle when it still exists. -/
def despawn_obstacle (env : Env) (veh : String) : List Effect :=
  if env.vehExists veh then [Effect.despawnObstacle veh] else []

/-- `_remove_marker`: no-op for a falsy id, otherwise remove the POI when it
is still listed. -/
def remove_marker (env : Env) (poi : Option String) : List Effect :=
  match poi with
  | none => []
  | some p =>
      if p = emptyStr then []
      else if env.poiExists p then [Effect.removeMarker p] else []

/-- The cleanup block shared by `clear_accident`, `step` expiry and
`shutdown`: dispatch on the MANAGER's configured mode (`self.mode`), then
remove the marker. -/
def cleanupEffects (env : Env) (mode : String) (acc : Accident) : List Effect :=
  (if mode = modeLaneBlock then restore_lane_state env acc
   else if mode = modeObstacle then
     (match acc.obstacle_veh_id with
      | some v => despawn_obstacle env v
      | none => [])
   else []) ++ remove_marker env acc.marker_poi_id

/-- `_apply_lane_block`: zero the lane's speed and disallow the used classes
(collapsed into one effect), provided the lane exists. -/
def apply_lane_block (env : Env) (lane : String) : List Effect :=
  if env.laneExists lane then [Effect.applyLaneBlock lane] else []

/-- `_lane_index_from_id`: `int(lane_id.rsplit("_", 1)[1])`, `0` on any
failure (no separator, or a non-numeric suffix). -/
def lane_index_from_id (lane_id : String) : Nat :=
  if (lane_id.splitOn underscoreStr).length ≤ 1 then 0
  else (((lane_id.splitOn underscoreStr).getLastD emptyStr).toNat?).getD 0

/-- The affected-lane-index set `get_edge_impacts` collects for one edge
`e`: the distinct lane indices of active accidents whose lane resolves (via
`traci.lane.getEdgeID`, skipping on failure) to `e`. -/
def affected_indices (env : Env) (active : List Accident) (e : String) : List Nat :=
  (active.filterMap (fun a =>
    match env.edgeOf a.lane_id with
    | none => none
    | some e2 =>
        if e2 = e then some (lane_index_from_id a.lane_id) else none)).dedup

/-- The impact value `get_edge_impacts` stores for an input edge `e`:
`min(1, affected / max(1, laneNumber)) * max(0, min(1, severity))`, `0`
outright when there is no active accident or no input edge. -/
def edge_impact_value (env : Env) (m : AccidentManager) (edges : List String)
    (severity_lane_block severity_obstacle : ℚ) (e : String) : ℚ :=
  if m.active.isEmpty ∨ edges.isEmpty then 0
  else
    let affected := (affected_indices env m.active e).length
    let total : Nat := max 1 ((env.laneNumber e).getD 1)
    let severity :=
      if m.mode = modeLaneBlock then severity_lane_block else severity_obstacle
    min 1 ((affected : ℚ) / (total : ℚ)) * max 0 (min 1 severity)

/-- `get_edge_impacts(edge_ids, severity_lane_block=1.0,
severity_obstacle=0.7)`: the dict `{edge_id: impact}` over the (deduplicated)
input edges. -/
def get_edge_impacts (env : Env) (m : AccidentManager) (edges : List String)
    (severity_lane_block severity_obstacle : ℚ) : List (String × ℚ) :=
  edges.dedup.map
    (fun e => (e, edge_impact_value env m edges severity_lane_block severity_obstacle e))

/-- `_add_marker`: returns the created POI id (`none` both when markers are
disabled and when the add failed, matching the falsy `""` return) together
with the add effect. -/
def add_marker (env : Env) (m : AccidentManager) (lane : String) :
    Option String × List Effect :=
  if m.enable_markers then
    match env.markerPoi lane with
    | none => (none, [])
    | some p => (some p, [Effect.addMarker p])
  else (none, [])

/-- `_spawn_obstacle` collapsed to its observable outcome: when the spawn
succeeds the spawned vehicle id, edge, position and lane index; raising is
modelled by `Env.obstacleSpawnOk` being `false`. -/
def spawn_obstacle (env : Env) (lane : String) :
    Option (String × Option String × ℚ × Nat) :=
  if env.obstacleSpawnOk lane then
    some (env.obstacleVehId lane, env.edgeOf lane, env.obstaclePos lane,
      lane_index_from_id lane)
  else none

/-- Keys of the `active` dict. -/
def activeKeys (active : List Accident) : List String :=
  active.map (fun a => a.lane_id)

/-- `clear_accident(lane_id)`: pop the accident if present, run the cleanup
dispatched on the manager's mode, report whether one existed. -/
def clear_accident (env : Env) (m : AccidentManager) (lane : String) :
    AccidentManager × Bool × List Effect :=
  match m.active.find? (fun a => a.lane_id = lane) with
  | none => (m, false, [])
  | some acc =>
      ({ m with active := m.active.eraseP (fun a => a.lane_id = lane) },
        true, cleanupEffects env m.mode acc)

/-- `clear_all()`: clear every active lane in insertion order, counting the
successes. -/
def clear_all (env : Env) (m : AccidentManager) :
    AccidentManager × Nat × List Effect :=
  (activeKeys m.active).foldl
    (fun st lane =>
      let r := clear_accident env st.1 lane
      (r.1, st.2.1 + (if r.2.1 then 1 else 0), st.2.2 ++ r.2.2))
    (m, 0, [])

/-- `shutdown()`: run the cleanup for every active accident, then empty the
active set. -/
def AccidentManager.shutdown (env : Env) (m : AccidentManager) :
    AccidentManager × List Effect :=
  ({ m with active := [] }, m.active.flatMap (cleanupEffects env m.mode))

/-- The expiry phase of `step(step_idx)`: close every active accident with
`step_idx >= end_step`, emitting its cleanup effects. -/
def expirePhase (env : Env) (mode : String) (active : List Accident)
    (step_idx : Int) : List Accident × List Effect :=
  (active.filter (fun a => ¬ a.end_step ≤ step_idx),
   (active.filter (fun a => a.end_step ≤ step_idx)).flatMap (cleanupEffects env mode))

/-- `_pick_lane()`: the candidate lanes currently without an accident. -/
def free_lanes (m : AccidentManager) : List String :=
  m.lane_candidates.filter (fun l => ¬ (activeKeys m.active).contains l)

/-- The mode dispatch shared by the spawn half of `step` and by
`create_accident_at`: apply the behavior for `use_mode`, returning the
updated accident record and the effects.  In `obstacle` mode a failed spawn
falls back to the lane-block behavior.  (The chosen positions, used only to
place the marker and the obstacle, are supplied by `Env`.) -/
def applyModeBehavior (env : Env) (m : AccidentManager) (use_mode : String)
    (lane : String) (acc : Accident) : Accident × List Effect :=
  if use_mode = modeLaneBlock then
    let blockEffs := apply_lane_block env lane
    let mk := add_marker env m lane
    ({ acc with marker_poi_id := mk.1 }, blockEffs ++ mk.2)
  else if use_mode = modeObstacle then
    match spawn_obstacle env lane with
    | some r =>
        let mk := add_marker env m lane
        ({ acc with
            obstacle_veh_id := some r.1
            obstacle_edge_id := r.2.1
            obstacle_pos := some r.2.2.1
            obstacle_lane_index := some r.2.2.2
            marker_poi_id := mk.1 },
          [Effect.spawnObstacle lane r.1] ++ mk.2)
    | none =>
        let blockEffs := apply_lane_block env lane
        let mk := add_marker env m lane
        ({ acc with marker_poi_id := mk.1 }, blockEffs ++ mk.2)
  else (acc, [])

/-- The spawn half of `step(step_idx)`, applied to the manager after expiry:
below the concurrency ceiling and with probability `prob_per_step`
(`rng.random() < prob`), pick a free candidate lane uniformly, sample a
duration, save the lane state and apply the mode behavior.  Note that an
unrecognized `mode` still inserts the bare record (the Python `step` has no
`else` branch in its mode dispatch). -/
def spawnPhase (env : Env) (m1 : AccidentManager) (step_idx : Int)
    (r : StepRng) : AccidentManager × List Effect :=
  if m1.max_concurrent ≤ m1.active.length then (m1, [])
  else if m1.prob ≤ r.u then (m1, [])
  else
    match (free_lanes m1).get? (r.pickIdx % (free_lanes m1).length) with
    | none => (m1, [])
    | some lane =>
        let acc0 : Accident :=
          { lane_id := lane, start_step := step_idx, end_step := step_idx + r.dur,
            prev_max_speed := env.prevSpeed lane, prev_allowed := env.prevAllowed lane }
        let b := applyModeBehavior env m1 m1.mode lane acc0
        ({ m1 with active := m1.active ++ [b.1] }, b.2)

/-- `step(step_idx)`: expire finished accidents, then run the spawn phase. -/
def AccidentManager.step (env : Env) (m : AccidentManager) (step_idx : Int)
    (r : StepRng) : AccidentManager × List Effect :=
  let ex := expirePhase env m.mode m.active step_idx
  let m1 : AccidentManager := { m with active := ex.1 }
  let sp := spawnPhase env m1 step_idx r
  (sp.1, ex.2 ++ sp.2)

/-- `create_accident_at(lane_id, duration_steps, pos_m, mode,
ignore_max_concurrent)`: the synchronous on-demand creation.  `rngDur` is the
`rng.randint(min_dur, max_dur)` draw used when no duration is supplied. -/
def create_accident_at (env : Env) (m : AccidentManager) (lane : String)
    (duration_steps : Option Int) (pos_m : Option ℚ) (mode : Option String)
    (ignore_max_concurrent : Bool) (rngDur : Int) :
    AccidentManager × Option Accident × List Effect :=
  if ¬ env.laneExists lane then (m, none, [])
  else
    match env.edgeOf lane with
    | none => (m, none, [])
    | some e =>
        if pyStartsWith e colonStr then (m, none, [])
        else if ¬ ignore_max_concurrent ∧ m.max_concurrent ≤ m.active.length then
          (m, none, [])
        else if (activeKeys m.active).contains lane then (m, none, [])
        else
          let dur := duration_steps.getD rngDur
          let acc0 : Accident :=
            { lane_id := lane, start_step := env.simTime,
              end_step := env.simTime + dur,
              prev_max_speed := env.prevSpeed lane,
              prev_allowed := env.prevAllowed lane }
          let use_mode := pyLower (mode.getD m.mode)
          if use_mode = modeLaneBlock ∨ use_mode = modeObstacle then
            let b := applyModeBehavior env m use_mode lane acc0
            ({ m with active := m.active ++ [b.1] }, some b.1, b.2)
          else (m, none, [])

/-- The interleavings quantified over by the concurrency-ceiling claim:
probabilistic `step()` ticks and on-demand `create_accident_at` calls with
`ignore_max_concurrent` left `false`. -/
inductive Op where
  | stepOp (idx : Int) (r : StepRng)
  | createOp (lane : String) (dur : Option Int) (pos : Option ℚ)
      (mode : Option String) (rngDur : Int)

/-- Run one operation, keeping the manager state. -/
def runOp (env : Env) (m : AccidentManager) : Op → AccidentManager
  | Op.stepOp idx r => (AccidentManager.step env m idx r).1
  | Op.createOp lane dur pos mode rngDur =>
      (create_accident_at env m lane dur pos mode false rngDur).1

/-- Run a sequence of operations. -/
def runOps (env : Env) (m : AccidentManager) (ops : List Op) : AccidentManager :=
  ops.foldl (runOp env) m

/-- Run a sequence of `step()` calls, concatenating the effect traces. -/
def runSteps (env : Env) : AccidentManager → List (Int × StepRng) →
    AccidentManager × List Effect
  | m, [] => (m, [])
  | m, c :: rest =>
      let s := AccidentManager.step env m c.1 c.2
      let t := runSteps env s.1 rest
      (t.1, s.2 ++ t.2)

/-- The per-lane-id uniqueness of the `active` dict. -/
def uniqKeys (active : List Accident) : Prop :=
  (activeKeys active).Nodup

/-! ### Interactive session step loop (`scripts/start_sim_gui.py`)

The loop body of the `for step in tqdm(range(MAX_SIMULATION_STEPS))` loop:
drain the HTTP command queue into the accident manager, record the signals'
current phase indices, advance the simulator one step, tick the accident
manager, and test the early-termination condition.  Every TraCI interaction
the body performs is recorded in a `TraciCmd` trace. -/

/-- A queued HTTP command: `SpawnCmd` (by lane or by geo coordinate) or
`ClearCmd` (`none` meaning clear-all). -/
inductive BotCmd where
  | spawnCmd (lon lat : Option ℚ) (lane_id : Option String) (pos_m : Option ℚ)
      (duration_steps : Option Int) (mode : Option String)
      (ignore_max_concurrent : Bool) (rngDur : Int)
  | clearCmd (lane_id : Option String)

/-- `process_commands(accident_manager)`: drain the queue, resolving geo
coordinates through `traci.simulation.convertRoad` and forwarding to
`create_accident_at` / `clear_accident` / `clear_all`. -/
def process_commands (env : Env) (m : AccidentManager) (queue : List BotCmd) :
    AccidentManager × List Effect :=
  queue.foldl
    (fun st cmd =>
      match cmd with
      | BotCmd.spawnCmd lon lat lane_id pos_m dur mode ig rngDur =>
          let resolved : Option (String × Option ℚ) :=
            match lane_id, lon, lat with
            | none, some lo, some la =>
                (env.convertRoad (lo, la)).map
                  (fun rc => (rc.1 ++ underscoreStr ++ toString rc.2.2,
                    some (pos_m.getD rc.2.1)))
            | some l, _, _ => some (l, pos_m)
            | none, _, _ => none
          match resolved with
          | none => st
          | some r =>
              let c := create_accident_at env st.1 r.1 dur r.2 mode ig rngDur
              (c.1, st.2 ++ c.2.2)
      | BotCmd.clearCmd lane_id =>
          match lane_id with
          | some l =>
              let c := clear_accident env st.1 l
              (c.1, st.2 ++ c.2.2)
          | none =>
              let c := clear_all env st.1
              (c.1, st.2 ++ c.2.2))
    (m, [])

/-- The TraCI interactions the interactive session's loop body performs. -/
inductive TraciCmd where
  | getPhase (tls : String)
  | simulationStep
  | getTime
  | accidentEffect (e : Effect)
  | setPhaseDuration (tls : String) (dur : ℚ)
  | getMinExpectedNumber
deriving DecidableEq

/-- The simulator facts surrounding one loop iteration: the phase indices
read before the step, the phase indices the simulator holds after the step,
and the `getMinExpectedNumber` answer. -/
structure GuiWorld where
  phaseBefore : String → Nat
  phaseAfter : String → Nat
  minExpected : Nat

/-- Whether a trace entry is a `setPhaseDuration` control command. -/
def isSetPhaseCmd : TraciCmd → Bool
  | TraciCmd.setPhaseDuration _ _ => true
  | _ => false

/-- One iteration of `start_sim_gui.py`'s main loop (lines 346–367):
`process_commands`; `last_phase_idx = {tls: getPhase(tls)}`;
`traci.simulationStep()`; `sim_time = getTime()`; `accident_manager.step(step)`;
early-exit test `getMinExpectedNumber() == 0 and step > 1`.  The frozen
agents' Q-values (`agents`) and the post-step phases (`world.phaseAfter`) are
in scope for the body, exactly as in the script, and are never consulted.
Returns the updated manager, the TraCI trace, and the break flag. -/
def gui_loop_body (env : Env) (world : GuiWorld) (tls_ids : List String)
    (agents : String → List (Int × ℚ)) (queue : List BotCmd)
    (am : Option AccidentManager) (stepIdx : Nat) (r : StepRng) :
    Option AccidentManager × List TraciCmd × Bool :=
  let drained :=
    match am with
    | some mgr =>
        let p := process_commands env mgr queue
        (some p.1, p.2.map TraciCmd.accidentEffect)
    | none => (none, [])
  let last_phase_idx := fun t => world.phaseBefore t
  let phaseReads := tls_ids.map (fun t => TraciCmd.getPhase t)
  let ticked :=
    match drained.1 with
    | some mgr =>
        let s := AccidentManager.step env mgr (stepIdx : Int) r
        (some s.1, s.2.map TraciCmd.accidentEffect)
    | none => (none, [])
  let _ := last_phase_idx
  let _ := agents
  let stop := world.minExpected = 0 ∧ 1 < stepIdx
  (ticked.1,
    drained.2 ++ phaseReads ++ [TraciCmd.simulationStep, TraciCmd.getTime] ++
      ticked.2 ++ [TraciCmd.getMinExpectedNumber],
    decide stop)

/-- Whether an effect restores a lane's saved pre-incident state
(`_restore_lane_state`). -/
def isRestoreEffect : Effect → Bool
  | Effect.restoreLane _ _ _ => true
  | _ => false

/-- Whether an effect restores the state of the given lane. -/
def isRestoreOfLane (l : String) : Effect → Bool
  | Effect.restoreLane l2 _ _ => l2 = l
  | _ => false

/-- Whether an effect despawns the given obstacle vehicle. -/
def isDespawnOf (v : String) : Effect → Bool
  | Effect.despawnObstacle v2 => v2 = v
  | _ => false

/-! ### Concrete test fixtures used by the witness theorems -/

/-- A lane id. -/
def laneW : String := "E1_0"

/-- A second lane id. -/
def laneW2 : String := "E2_0"

/-- The edge of `laneW`. -/
def edgeW : String := "E1"

/-- An obstacle vehicle id. -/
def vehW : String := "veh1"

/-- A marker POI id. -/
def poiW : String := "poi1"

/-- A concrete environment: every entity exists, every lane maps to `edgeW`
with two lanes, obstacle spawns succeed. -/
def envW : Env :=
  { laneExists := fun _ => true
    edgeOf := fun _ => some edgeW
    laneNumber := fun _ => some 2
    prevSpeed := fun _ => 14
    prevAllowed := fun _ => none
    vehExists := fun _ => true
    poiExists := fun _ => true
    obstacleSpawnOk := fun _ => true
    obstacleVehId := fun _ => vehW
    obstaclePos := fun _ => 5
    markerPoi := fun _ => some poiW
    simTime := 0
    convertRoad := fun _ => none }

/-- Like `envW` but with obstacle spawning failing. -/
def envWFail : Env := { envW with obstacleSpawnOk := fun _ => false }

/-- A concrete active accident on `laneW` ending at step 5. -/
def accW : Accident :=
  { lane_id := laneW, start_step := 0, end_step := 5, prev_max_speed := 14
    prev_allowed := none, marker_poi_id := some poiW }

/-- A lane-block-mode manager with `accW` active. -/
def mgrLB : AccidentManager :=
  { lane_candidates := [laneW, laneW2], mode := modeLaneBlock, prob := 0
    min_dur := 100, max_dur := 300, max_concurrent := 3, enable_markers := true
    active := [accW] }

/-- An obstacle-mode manager with `accW` active. -/
def mgrOB : AccidentManager := { mgrLB with mode := modeObstacle }

/-- A manager with no active accident. -/
def mgrEmpty : AccidentManager := { mgrLB with active := [] }

/-- A `step()` random draw whose uniform sample suppresses spawning under
`prob = 0`. -/
def rngW : StepRng := { u := 1, pickIdx := 0, dur := 10 }

/-- A traffic-signal id. -/
def tlsW : String := "J1"

/-- A world in which every signal's phase index changes from 0 to 1 across
the simulation step. -/
def worldChg : GuiWorld :=
  { phaseBefore := fun _ => 0, phaseAfter := fun _ => 1, minExpected := 5 }

/-- Like `worldChg` but with no phase change. -/
def worldSame : GuiWorld :=
  { phaseBefore := fun _ => 0, phaseAfter := fun _ => 0, minExpected := 5 }

/-- A loaded (frozen) Q-table recommending `+30` for every state. -/
def agentsTrained : String → List (Int × ℚ) := fun _ => [(30, 5), (0, 1), (-30, 0)]

/-- An empty Q-table. -/
def agentsEmpty : String → List (Int × ℚ) := fun _ => []

/-! ## Theorems -/

/-! ### C1: pre-enumerated state table vs. runtime states -/

/-- Every state enumerated by `create_state_table` has a phase RYG string as
its first component. -/
theorem mem_create_state_table_phase {phases edges : List String} {s : TLSState}
    (h : s ∈ create_state_table phases edges) : ∃ p, s.phase = PhaseKey.str p := by
  unfold create_state_table at h
  rw [List.mem_flatMap] at h
  obtain ⟨p, _, hmem⟩ := h
  rw [List.mem_map] at hmem
  obtain ⟨c, _, rfl⟩ := hmem
  exact ⟨p, rfl⟩

/-- C1: the claim that every runtime state produced by `create_state_for_tls`
is a member of the list built by `create_state_table` is false for EVERY
input: `create_state_table` keys its states by the phase RYG state strings
returned by `get_all_tls_phases`, while `create_state_for_tls` keys the
runtime state by the integer phase index returned by
`traci.trafficlight.getPhase`, and an integer never equals a string.  Hence
no state the agent can observe is pre-seeded in the Q-table. -/
theorem c1_runtime_state_never_preseeded (phases edges : List String)
    (current_phase_index : Nat) (waits : List ℚ) :
    create_state_for_tls current_phase_index waits ∉ create_state_table phases edges := by
  intro h
  obtain ⟨p, hp⟩ := mem_create_state_table_phase h
  exact PhaseKey.noConfusion hp

/-- C1, evaluated at the failing input: a signal with phase program
`["GrGr", "yryr"]`, one controlled edge with waiting time `5` s and current
phase index `0` observes the state `(0, Low)`, which is not in the
pre-enumerated table. -/
theorem c1_failing_input :
    create_state_for_tls 0 [5] ∉
      create_state_table ["GrGr", "yryr"] ["edgeA"] := by
  intro h
  obtain ⟨p, hp⟩ := mem_create_state_table_phase h
  exact PhaseKey.noConfusion hp

/-! ### C8: Q-update monotone convergence toward the target -/

/-- The affine contraction identity of one `update_q_table` application with
learning rate `0.1` and discount factor `0.9`. -/
theorem q_iter_sub_target (reward m q0 : ℚ) (n : Nat) :
    q_iter reward m q0 (n + 1) - (reward + (9/10) * m)
      = (9/10) * (q_iter reward m q0 n - (reward + (9/10) * m)) := by
  show update_q_table (1/10) (9/10) (q_iter reward m q0 n) reward m
      - (reward + (9/10) * m)
    = (9/10) * (q_iter reward m q0 n - (reward + (9/10) * m))
  unfold update_q_table
  ring

/-- Iterates started below the target stay below it. -/
theorem q_iter_le_target (reward m q0 : ℚ) (h : q0 ≤ reward + (9/10) * m) :
    ∀ n, q_iter reward m q0 n ≤ reward + (9/10) * m := by
  intro n
  induction n with
  | zero => exact h
  | succ k ih =>
      have hc := q_iter_sub_target reward m q0 k
      nlinarith [hc]

/-- Iterates started above the target stay above it. -/
theorem q_iter_ge_target (reward m q0 : ℚ) (h : reward + (9/10) * m ≤ q0) :
    ∀ n, reward + (9/10) * m ≤ q_iter reward m q0 n := by
  intro n
  induction n with
  | zero => exact h
  | succ k ih =>
      have hc := q_iter_sub_target reward m q0 k
      nlinarith [hc]

/-- C8: applying `update_q_table` repeatedly to the same `(s, a, r, s')` with
learning rate `0.1` and discount factor `0.9` while the next-state values are
held constant moves `Q(s, a)` monotonically toward the target
`r + 0.9 * max Q(s', ·)` without ever crossing to the far side of it. -/
theorem c8_q_update_monotone_no_overshoot (reward m q0 : ℚ) (n : Nat) :
    |q_iter reward m q0 (n + 1) - (reward + (9/10) * m)|
        ≤ |q_iter reward m q0 n - (reward + (9/10) * m)| ∧
    (q0 ≤ reward + (9/10) * m →
      q_iter reward m q0 n ≤ q_iter reward m q0 (n + 1) ∧
      q_iter reward m q0 (n + 1) ≤ reward + (9/10) * m) ∧
    (reward + (9/10) * m ≤ q0 →
      q_iter reward m q0 (n + 1) ≤ q_iter reward m q0 n ∧
      reward + (9/10) * m ≤ q_iter reward m q0 (n + 1)) := by
  have hc := q_iter_sub_target reward m q0 n
  refine ⟨?_, ?_, ?_⟩
  · rw [hc, abs_mul]
    have h9 : |(9 : ℚ)/10| = 9/10 := by norm_num
    rw [h9]
    nlinarith [abs_nonneg (q_iter reward m q0 n - (reward + (9/10) * m))]
  · intro h
    have hle := q_iter_le_target reward m q0 h n
    have hle2 := q_iter_le_target reward m q0 h (n + 1)
    exact ⟨by nlinarith [hc], hle2⟩
  · intro h
    have hge := q_iter_ge_target reward m q0 h n
    have hge2 := q_iter_ge_target reward m q0 h (n + 1)
    exact ⟨by nlinarith [hc], hge2⟩

/-- C8 witness: the theorem applied to `r = 1`, `max Q(s',·) = 0`, `Q₀ = 0`
after the first update (`Q₁ = 1/10`, target `1`). -/
theorem c8_q_update_witness :
    |q_iter 1 0 0 (0 + 1) - ((1 : ℚ) + (9/10) * 0)| ≤ |q_iter 1 0 0 0 - (1 + (9/10) * 0)| ∧
    ((0 : ℚ) ≤ 1 + (9/10) * 0 →
      q_iter 1 0 0 0 ≤ q_iter 1 0 0 (0 + 1) ∧ q_iter 1 0 0 (0 + 1) ≤ 1 + (9/10) * 0) ∧
    ((1 : ℚ) + (9/10) * 0 ≤ 0 →
      q_iter 1 0 0 (0 + 1) ≤ q_iter 1 0 0 0 ∧ 1 + (9/10) * 0 ≤ q_iter 1 0 0 (0 + 1)) :=
  c8_q_update_monotone_no_overshoot 1 0 0 0

/-! ### C9: the safe-call wrapper -/

/-- C9: `safe_traci_call` re-raises the distinguished fatal protocol error
unchanged, passes a successful result through unmodified, and on any other
exception returns the caller-supplied default when `swallow` is set. -/
theorem c9_safe_call_contract (α : Type) (call : CallOutcome α) (swallow : Bool)
    (default : α) :
    (call = CallOutcome.fatal →
      safe_traci_call call swallow default = CallOutcome.fatal) ∧
    (∀ v, call = CallOutcome.ok v →
      safe_traci_call call swallow default = CallOutcome.ok v) ∧
    (call = CallOutcome.exn → swallow = true →
      safe_traci_call call swallow default = CallOutcome.ok default) := by
  refine ⟨?_, ?_, ?_⟩
  · intro h; subst h; rfl
  · intro v h; subst h; rfl
  · intro h hs; subst h; subst hs; rfl

/-- C9 witness: a non-fatal exception with `swallow = true` yields the
default value. -/
theorem c9_safe_call_witness :
    safe_traci_call (CallOutcome.exn : CallOutcome Nat) true 7 = CallOutcome.ok 7 :=
  (c9_safe_call_contract Nat CallOutcome.exn true 7).2.2 rfl rfl

/-! ### C6: metrics cache edge aggregation -/

/-- Characterization of the aggregation loop's accumulator after the fold. -/
theorem edge_fold_char (lanes : List LaneStats) (a : EdgeAcc) :
    (lanes.foldl edge_acc_step a).veh_sum
        = a.veh_sum + (lanes.map (fun s => s.veh)).sum ∧
    (lanes.foldl edge_acc_step a).halt_sum
        = a.halt_sum + (lanes.map (fun s => s.halting)).sum ∧
    (lanes.foldl edge_acc_step a).speed_num
        = a.speed_num + (lanes.map (fun s => s.speed * (s.veh : ℚ))).sum ∧
    (lanes.foldl edge_acc_step a).speed_den
        = a.speed_den + (lanes.map (fun s => s.veh)).sum ∧
    (lanes.foldl edge_acc_step a).occ_sum
        = a.occ_sum + (lanes.map (fun s => s.occ)).sum ∧
    (lanes.foldl edge_acc_step a).occ_cnt = a.occ_cnt + lanes.length := by
  induction lanes generalizing a with
  | nil => simp
  | cons s rest ih =>
      obtain ⟨h1, h2, h3, h4, h5, h6⟩ := ih (edge_acc_step a s)
      have hnum : (if 0 < s.veh then s.speed * (s.veh : ℚ) else 0)
          = s.speed * (s.veh : ℚ) := by
        rcases Nat.eq_zero_or_pos s.veh with h | h
        · simp [h]
        · simp [h]
      have hden : (if 0 < s.veh then s.veh else 0) = s.veh := by
        rcases Nat.eq_zero_or_pos s.veh with h | h
        · simp [h]
        · simp [h]
      refine ⟨?_, ?_, ?_, ?_, ?_, ?_⟩ <;>
        (simp only [List.foldl_cons, List.map_cons, List.sum_cons, List.length_cons])
      · rw [h1]; simp only [edge_acc_step]; omega
      · rw [h2]; simp only [edge_acc_step]; omega
      · rw [h3]; simp only [edge_acc_step, hnum]; ring
      · rw [h4]; simp only [edge_acc_step, hden]; omega
      · rw [h5]; simp only [edge_acc_step]; ring
      · rw [h6]; simp only [edge_acc_step]; omega

/-- C6: the edge aggregate reports the vehicle-count sum for `veh`, the sum
for `halting`, the vehicle-count-weighted mean speed (zero-vehicle lanes
carrying no weight, `0` when no lane has vehicles), and the arithmetic mean
over the lanes for `occ`; on the readings `veh = [2, 0]`, `speed = [10, 0]`,
`occ = [1/2, 1/10]`, `halting = [1, 0]` it yields `veh = 2`, `halting = 1`,
`speed = 10`, `occ = 3/10`. -/
theorem c6_edge_aggregation (lanes : List LaneStats) :
    (aggregate_edge lanes).veh = (lanes.map (fun s => s.veh)).sum ∧
    (aggregate_edge lanes).halting = (lanes.map (fun s => s.halting)).sum ∧
    ((lanes.map (fun s => s.veh)).sum = 0 → (aggregate_edge lanes).speed = 0) ∧
    ((lanes.map (fun s => s.veh)).sum ≠ 0 →
      (aggregate_edge lanes).speed
        = (lanes.map (fun s => s.speed * (s.veh : ℚ))).sum
            / (((lanes.map (fun s => s.veh)).sum : ℚ))) ∧
    (lanes = [] → (aggregate_edge lanes).occ = 0) ∧
    (lanes ≠ [] →
      (aggregate_edge lanes).occ
        = (lanes.map (fun s => s.occ)).sum / (lanes.length : ℚ)) ∧
    aggregate_edge [LaneStats.mk 2 10 1 (1/2), LaneStats.mk 0 0 0 (1/10)]
      = EdgeAgg.mk 2 1 10 (3/10) := by
  obtain ⟨h1, h2, h3, h4, h5, h6⟩ := edge_fold_char lanes (EdgeAcc.mk 0 0 0 0 0 0)
  refine ⟨?_, ?_, ?_, ?_, ?_, ?_, ?_⟩
  · simp [aggregate_edge, h1]
  · simp [aggregate_edge, h2]
  · intro h
    simp [aggregate_edge, h4, h]
  · intro h
    simp [aggregate_edge, h3, h4, h, Function.comp_def]
  · intro h
    simp [aggregate_edge, h6, h]
  · intro h
    have hlen : lanes.length ≠ 0 := by
      simpa [List.length_eq_zero] using h
    simp [aggregate_edge, h5, h6, hlen]
  · simp only [aggregate_edge, List.foldl_cons, List.foldl_nil, edge_acc_step]
    norm_num

/-- C6 witness: the theorem at the spec's synthetic two-lane reading. -/
theorem c6_edge_aggregation_witness :
    (aggregate_edge [LaneStats.mk 2 10 1 (1/2), LaneStats.mk 0 0 0 (1/10)]).occ
      = ([LaneStats.mk 2 10 1 (1/2), LaneStats.mk 0 0 0 (1/10)].map
          (fun s => s.occ)).sum
        / (([LaneStats.mk 2 10 1 (1/2), LaneStats.mk 0 0 0 (1/10)] : List LaneStats).length : ℚ) :=
  (c6_edge_aggregation [LaneStats.mk 2 10 1 (1/2), LaneStats.mk 0 0 0 (1/10)]).2.2.2.2.2.1
    (by simp)

/-! ### C7: ε-greedy boundary behavior of `choose_action` -/

/-- Invariant of the `choose_action` maximum-scan loop: if `mq` bounds every
processed item and every recorded best action attains `mq` among the
processed items, then every action the finished scan reports attains the
maximum over all items. -/
theorem best_actions_aux_spec (rest : List (Int × ℚ)) :
    ∀ (mq : ℚ) (best : List Int) (processed : List (Int × ℚ)),
      (∀ p ∈ processed, p.2 ≤ mq) →
      (∀ b ∈ best, (b, mq) ∈ processed) →
      ∀ a ∈ (best_actions_aux rest (some mq) best).2,
        ∃ v, (a, v) ∈ processed ++ rest ∧ ∀ p ∈ processed ++ rest, p.2 ≤ v := by
  induction rest with
  | nil =>
      intro mq best processed hmax hbest a ha
      simp only [best_actions_aux] at ha
      refine ⟨mq, ?_, ?_⟩
      · simpa using hbest a ha
      · simpa using hmax
  | cons hd tl ih =>
      obtain ⟨a1, q1⟩ := hd
      intro mq best processed hmax hbest a ha
      rw [List.append_cons]
      simp only [best_actions_aux] at ha
      by_cases hlt : mq < q1
      · rw [if_pos hlt] at ha
        refine ih q1 [a1] (processed ++ [(a1, q1)]) ?_ ?_ a ha
        · intro p hp
          rcases List.mem_append.mp hp with h | h
          · exact le_of_lt (lt_of_le_of_lt (hmax p h) hlt)
          · simp at h; simp [h]
        · intro b hb
          simp at hb
          simp [hb]
      · rw [if_neg hlt] at ha
        by_cases heq : q1 = mq
        · rw [if_pos heq] at ha
          refine ih mq (best ++ [a1]) (processed ++ [(a1, q1)]) ?_ ?_ a ha
          · intro p hp
            rcases List.mem_append.mp hp with h | h
            · exact hmax p h
            · simp at h; simp [h, heq.le]
          · intro b hb
            rcases List.mem_append.mp hb with h | h
            · exact List.mem_append_left _ (hbest b h)
            · simp at h
              subst h
              subst heq
              simp
        · rw [if_neg heq] at ha
          refine ih mq best (processed ++ [(a1, q1)]) ?_ ?_ a ha
          · intro p hp
            rcases List.mem_append.mp hp with h | h
            · exact hmax p h
            · simp at h
              simp [h, le_of_not_lt hlt]
          · intro b hb
            exact List.mem_append_left _ (hbest b hb)

/-- Every action in `best_actions qs` attains the maximal Q-value of `qs`. -/
theorem best_actions_mem_max (qs : List (Int × ℚ)) :
    ∀ a ∈ best_actions qs, ∃ v, (a, v) ∈ qs ∧ ∀ p ∈ qs, p.2 ≤ v := by
  match qs with
  | [] =>
      intro a ha
      simp [best_actions, best_actions_aux] at ha
  | (a1, q1) :: tl =>
      intro a ha
      have hstep : best_actions ((a1, q1) :: tl)
          = (best_actions_aux tl (some q1) [a1]).2 := by
        simp [best_actions, best_actions_aux]
      rw [hstep] at ha
      have := best_actions_aux_spec tl q1 [a1] [(a1, q1)]
        (by intro p hp; simp at hp; simp [hp])
        (by intro b hb; simp at hb; simp [hb]) a ha
      simpa using this

/-- C7: with ε fixed at `0` the uniform draw `u ∈ [0, 1)` never triggers the
exploration branch, so `choose_action` returns an action attaining the
maximal Q-value of the state (ties resolved by the random pick within the
maximal set); with ε fixed at `1` it always explores, returning the element
of the full action list selected by the random pick — independent of the
Q-table contents. -/
theorem c7_epsilon_boundaries (u : ℚ) (hu0 : 0 ≤ u) (hu1 : u < 1) (pick : Nat)
    (actions : List Int) (qs qs2 : List (Int × ℚ)) :
    (∀ a, choose_action 0 u pick actions qs = some a →
      ∃ v, (a, v) ∈ qs ∧ ∀ p ∈ qs, p.2 ≤ v) ∧
    choose_action 1 u pick actions qs = actions.get? (pick % actions.length) ∧
    choose_action 1 u pick actions qs = choose_action 1 u pick actions qs2 := by
  have hnot : ¬ u < 0 := not_lt.mpr hu0
  refine ⟨?_, ?_, ?_⟩
  · intro a ha
    rw [choose_action, if_neg hnot] at ha
    exact best_actions_mem_max qs a (List.get?_mem ha)
  · rw [choose_action, if_pos hu1]
  · rw [choose_action, if_pos hu1, choose_action, if_pos hu1]

/-- C7 witness: at ε = 1 with `u = 1/2` the chosen action comes from the
action list, regardless of a non-trivial versus empty Q-table. -/
theorem c7_epsilon_boundaries_witness :
    choose_action 1 (1/2) 0 [5, 0, -5] [(5, 2), (0, 7)]
      = choose_action 1 (1/2) 0 [5, 0, -5] [] :=
  (c7_epsilon_boundaries (1/2) (by norm_num) (by norm_num) 0 [5, 0, -5]
    [(5, 2), (0, 7)] []).2.2

/-! ### C5: edge-impact bounds -/

/-- C5: every value `get_edge_impacts` (at its default severities) returns
lies in `[0, severity]`, where the severity is `1` in `lane_block` mode and
`7/10` in `obstacle` mode, and an edge none of whose lanes carries an active
accident gets exactly `0`. -/
theorem c5_edge_impacts_bounds (env : Env) (m : AccidentManager)
    (edges : List String) (e : String) (v : ℚ)
    (hmem : (e, v) ∈ get_edge_impacts env m edges 1 (7/10)) :
    (0 ≤ v ∧ v ≤ (if m.mode = modeLaneBlock then (1 : ℚ) else 7/10)) ∧
    ((∀ a ∈ m.active, env.edgeOf a.lane_id ≠ some e) → v = 0) := by
  rw [get_edge_impacts, List.mem_map] at hmem
  obtain ⟨e2, _, heq⟩ := hmem
  rw [Prod.mk.injEq] at heq
  obtain ⟨rfl, hv⟩ := heq
  subst hv
  constructor
  · rw [edge_impact_value]
    split
    · constructor
      · exact le_refl 0
      · by_cases hmode : m.mode = modeLaneBlock <;> simp [hmode] <;> norm_num
    · have htotpos : (0 : ℚ) < ((max 1 ((env.laneNumber e2).getD 1) : Nat) : ℚ) := by
        have : (1 : Nat) ≤ max 1 ((env.laneNumber e2).getD 1) := le_max_left _ _
        exact_mod_cast Nat.lt_of_lt_of_le Nat.zero_lt_one this
      have hfrac0 : (0 : ℚ) ≤ min 1 (((affected_indices env m.active e2).length : ℚ)
          / ((max 1 ((env.laneNumber e2).getD 1) : Nat) : ℚ)) := by
        apply le_min
        · norm_num
        · exact div_nonneg (Nat.cast_nonneg _) (le_of_lt htotpos)
      have hfrac1 : min 1 (((affected_indices env m.active e2).length : ℚ)
          / ((max 1 ((env.laneNumber e2).getD 1) : Nat) : ℚ)) ≤ 1 := min_le_left _ _
      by_cases hmode : m.mode = modeLaneBlock
      · simp only [hmode, if_pos rfl, if_pos]
        constructor
        · have : (0 : ℚ) ≤ max 0 (min 1 1) := le_max_left _ _
          exact mul_nonneg hfrac0 this
        · have hc : max (0 : ℚ) (min 1 1) = 1 := by norm_num
          rw [hc, mul_one]
          exact hfrac1
      · simp only [hmode, if_neg hmode, if_false]
        constructor
        · have : (0 : ℚ) ≤ max 0 (min 1 (7/10)) := le_max_left _ _
          exact mul_nonneg hfrac0 this
        · have hc : max (0 : ℚ) (min 1 (7/10)) = 7/10 := by norm_num
          rw [hc]
          calc min 1 (((affected_indices env m.active e2).length : ℚ)
                / ((max 1 ((env.laneNumber e2).getD 1) : Nat) : ℚ)) * (7/10)
              ≤ 1 * (7/10) := by
                apply mul_le_mul_of_nonneg_right hfrac1
                norm_num
            _ = 7/10 := one_mul _
  · intro hno
    rw [edge_impact_value]
    split
    · rfl
    · have haff : affected_indices env m.active e2 = [] := by
        rw [affected_indices]
        have : m.active.filterMap (fun a =>
            match env.edgeOf a.lane_id with
            | none => none
            | some e3 =>
                if e3 = e2 then some (lane_index_from_id a.lane_id) else none)
              = [] := by
          rw [List.filterMap_eq_nil_iff]
          intro a ha
          cases hedge : env.edgeOf a.lane_id with
          | none => rfl
          | some e3 =>
              have hne := hno a ha
              rw [hedge] at hne
              have : ¬ e3 = e2 := by
                intro hcontra
                exact hne (by rw [hcontra])
              simp [this]
        rw [this]
        rfl
      rw [haff]
      simp

/-- C5 witness: an obstacle-mode manager with one accident on `laneW`
(edge `edgeW`, two lanes) yields impact `7/20 = (1/2) · 0.7` for `edgeW`,
inside `[0, 7/10]`. -/
theorem c5_edge_impacts_witness :
    (0 ≤ (7/20 : ℚ) ∧ (7/20 : ℚ) ≤ (if mgrOB.mode = modeLaneBlock then (1 : ℚ) else 7/10)) :=
  (c5_edge_impacts_bounds envW mgrOB [edgeW] edgeW (7/20)
    (by
      simp only [get_edge_impacts, edge_impact_value, affected_indices,
        envW, mgrOB, mgrLB, accW, laneW, edgeW, modeObstacle, modeLaneBlock,
        List.filterMap_cons, List.filterMap_nil]
      have hs : (("obstacle" : String) = "lane_block") = False := by simp
      norm_num [List.dedup_cons_of_not_mem, min_def, max_def, hs])).1

/-! ### C10: cleanup dispatches on the manager's mode -/

/-- `_remove_marker` never issues a lane restoration. -/
theorem remove_marker_no_restore (env : Env) (poi : Option String) :
    ∀ e ∈ remove_marker env poi, isRestoreEffect e = false := by
  intro e he
  rcases poi with _ | p
  · simp [remove_marker] at he
  · rw [remove_marker] at he
    split at he
    · simp at he
    · split at he
      · rw [List.mem_singleton] at he
        subst he
        rfl
      · simp at he

/-- `_despawn_obstacle` never issues a lane restoration. -/
theorem despawn_no_restore (env : Env) (v : String) :
    ∀ e ∈ despawn_obstacle env v, isRestoreEffect e = false := by
  intro e he
  rw [despawn_obstacle] at he
  split at he
  · rw [List.mem_singleton] at he
    subst he
    rfl
  · simp at he

/-- The mode-behavior dispatch (spawn paths) never issues a lane
restoration. -/
theorem behavior_no_restore (env : Env) (m : AccidentManager) (um lane : String)
    (acc : Accident) :
    ∀ e ∈ (applyModeBehavior env m um lane acc).2, isRestoreEffect e = false := by
  intro e he
  rw [applyModeBehavior] at he
  have hblock : ∀ x ∈ apply_lane_block env lane, isRestoreEffect x = false := by
    intro x hx
    rw [apply_lane_block] at hx
    split at hx
    · rw [List.mem_singleton] at hx
      subst hx
      rfl
    · simp at hx
  have hmark : ∀ x ∈ (add_marker env m lane).2, isRestoreEffect x = false := by
    intro x hx
    rw [add_marker] at hx
    split at hx
    · split at hx
      · simp at hx
      · rw [List.mem_singleton] at hx
        subst hx
        rfl
    · simp at hx
  split at he
  · rcases List.mem_append.mp he with h | h
    · exact hblock e h
    · exact hmark e h
  · split at he
    · split at he
      · rcases List.mem_append.mp he with h | h
        · rw [List.mem_singleton] at h
          subst h
          rfl
        · exact hmark e h
      · rcases List.mem_append.mp he with h | h
        · exact hblock e h
        · exact hmark e h
    · simp at he

/-- In obstacle mode the shared cleanup block never restores a lane. -/
theorem cleanup_obstacle_no_restore (env : Env) (acc : Accident) :
    ∀ e ∈ cleanupEffects env modeObstacle acc, isRestoreEffect e = false := by
  intro e he
  rw [cleanupEffects] at he
  have hne : modeObstacle ≠ modeLaneBlock := by decide
  rw [if_neg hne, if_pos rfl] at he
  rcases List.mem_append.mp he with h | h
  · cases hveh : acc.obstacle_veh_id with
    | none => rw [hveh] at h; simp at h
    | some v =>
        rw [hveh] at h
        exact despawn_no_restore env v e h
  · exact remove_marker_no_restore env acc.marker_poi_id e h

/-- Every effect of the spawn phase comes from the mode-behavior dispatch. -/
theorem spawn_effects_from_behavior (env : Env) (m1 : AccidentManager)
    (idx : Int) (r : StepRng) :
    ∀ e ∈ (spawnPhase env m1 idx r).2,
      ∃ lane acc, e ∈ (applyModeBehavior env m1 m1.mode lane acc).2 := by
  intro e he
  rw [spawnPhase] at he
  split at he
  · simp at he
  · split at he
    · simp at he
    · split at he
      · simp at he
      · exact ⟨_, _, he⟩

/-- In obstacle mode, `step` never restores a lane. -/
theorem step_no_restore_obstacle (env : Env) (m : AccidentManager) (idx : Int)
    (r : StepRng) (hmode : m.mode = modeObstacle) :
    (AccidentManager.step env m idx r).2.filter isRestoreEffect = [] := by
  rw [List.filter_eq_nil_iff]
  intro e he
  simp only [AccidentManager.step, List.mem_append] at he
  rcases he with h | h
  · rw [expirePhase, hmode] at h
    obtain ⟨b, _, hmem⟩ := List.mem_flatMap.mp h
    simp [cleanup_obstacle_no_restore env b e hmem]
  · obtain ⟨lane, acc, hmem⟩ := spawn_effects_from_behavior env _ idx r e h
    simp [behavior_no_restore env _ _ lane acc e hmem]

/-- The lane-block behavior leaves the obstacle-vehicle field unchanged. -/
theorem behavior_lane_block_keeps_veh (env : Env) (m : AccidentManager)
    (lane : String) (acc : Accident) :
    (applyModeBehavior env m modeLaneBlock lane acc).1.obstacle_veh_id
      = acc.obstacle_veh_id := by
  rw [applyModeBehavior, if_pos rfl]

/-- A failed obstacle spawn falls back to the lane block and leaves the
obstacle-vehicle field unchanged. -/
theorem behavior_fallback_keeps_veh (env : Env) (m : AccidentManager)
    (lane : String) (acc : Accident)
    (hfail : env.obstacleSpawnOk lane = false) :
    (applyModeBehavior env m modeObstacle lane acc).1.obstacle_veh_id
      = acc.obstacle_veh_id := by
  have hne : modeObstacle ≠ modeLaneBlock := by decide
  rw [applyModeBehavior, if_neg hne, if_pos rfl, spawn_obstacle, hfail]
  simp

/-- C10: the cleanup paths (`clear_accident`, `step` expiry, `shutdown`)
dispatch on the MANAGER's configured mode, not on the mode an individual
accident was created with: with the manager in `obstacle` mode no cleanup
ever restores a lane's saved pre-incident max-speed/allowed-classes, even
though `create_accident_at` with `mode="lane_block"` (and the obstacle-spawn
failure fallback) produces active accidents that applied a lane block and
carry no obstacle vehicle. -/
theorem c10_cleanup_uses_manager_mode (env : Env) (m : AccidentManager)
    (hmode : m.mode = modeObstacle) (lane : String) (idx : Int) (r : StepRng)
    (dur : Option Int) (pos : Option ℚ) (ig : Bool) (rngDur : Int) :
    ((clear_accident env m lane).2.2.filter isRestoreEffect = []) ∧
    ((AccidentManager.step env m idx r).2.filter isRestoreEffect = []) ∧
    ((AccidentManager.shutdown env m).2.filter isRestoreEffect = []) ∧
    (∀ m2 acc effs,
      create_accident_at env m lane dur pos (some modeLaneBlock) ig rngDur
        = (m2, some acc, effs) → acc.obstacle_veh_id = none) ∧
    (env.obstacleSpawnOk lane = false →
      ∀ m2 acc effs,
        create_accident_at env m lane dur pos (some modeObstacle) ig rngDur
          = (m2, some acc, effs) → acc.obstacle_veh_id = none) := by
  refine ⟨?_, step_no_restore_obstacle env m idx r hmode, ?_, ?_, ?_⟩
  · rw [clear_accident]
    cases hfind : m.active.find? (fun a => a.lane_id = lane) with
    | none => rfl
    | some acc =>
        rw [List.filter_eq_nil_iff]
        intro e he
        rw [hmode] at he
        simp [cleanup_obstacle_no_restore env acc e he]
  · rw [AccidentManager.shutdown, List.filter_eq_nil_iff]
    intro e he
    rw [hmode] at he
    obtain ⟨b, _, hmem⟩ := List.mem_flatMap.mp he
    simp [cleanup_obstacle_no_restore env b e hmem]
  · intro m2 acc effs h
    have hlower : pyLower modeLaneBlock = modeLaneBlock := by decide
    rw [create_accident_at] at h
    split at h
    · simp at h
    · split at h
      · simp at h
      · split at h
        · simp at h
        · split at h
          · simp at h
          · split at h
            · simp at h
            · simp only [Option.getD_some, hlower] at h
              rw [if_pos (Or.inl trivial)] at h
              rw [Prod.mk.injEq, Prod.mk.injEq] at h
              obtain ⟨-, hacc, -⟩ := h
              rw [Option.some_inj] at hacc
              rw [← hacc, behavior_lane_block_keeps_veh]
  · intro hfail m2 acc effs h
    have hlower : pyLower modeObstacle = modeObstacle := by decide
    have hne : modeObstacle ≠ modeLaneBlock := by decide
    rw [create_accident_at] at h
    split at h
    · simp at h
    · split at h
      · simp at h
      · split at h
        · simp at h
        · split at h
          · simp at h
          · split at h
            · simp at h
            · simp only [Option.getD_some, hlower] at h
              rw [if_pos (Or.inr trivial)] at h
              rw [Prod.mk.injEq, Prod.mk.injEq] at h
              obtain ⟨-, hacc, -⟩ := h
              rw [Option.some_inj] at hacc
              rw [← hacc, behavior_fallback_keeps_veh env m lane _ hfail]

/-- C10 witness: clearing the accident of an obstacle-mode manager restores
nothing. -/
theorem c10_cleanup_witness :
    (clear_accident envW mgrOB laneW).2.2.filter isRestoreEffect = [] :=
  (c10_cleanup_uses_manager_mode envW mgrOB rfl laneW 0 rngW none none false 10).1

/-! ### C4: concurrency ceiling and one-accident-per-lane invariant -/

/-- The expiry phase only removes accidents. -/
theorem expirePhase_sublist (env : Env) (mode : String) (l : List Accident)
    (idx : Int) : (expirePhase env mode l idx).1.Sublist l :=
  List.filter_sublist l

/-- Every mode behavior keeps the accident's lane id. -/
theorem behavior_keeps_lane (env : Env) (m : AccidentManager) (um lane : String)
    (acc : Accident) :
    (applyModeBehavior env m um lane acc).1.lane_id = acc.lane_id := by
  rw [applyModeBehavior]
  split
  · rfl
  · split
    · split
      · rfl
      · rfl
    · rfl

/-- The spawn phase preserves the configuration fields. -/
theorem spawnPhase_fields (env : Env) (m1 : AccidentManager) (idx : Int)
    (r : StepRng) :
    (spawnPhase env m1 idx r).1.mode = m1.mode ∧
    (spawnPhase env m1 idx r).1.max_concurrent = m1.max_concurrent := by
  rw [spawnPhase]
  split
  · exact ⟨rfl, rfl⟩
  · split
    · exact ⟨rfl, rfl⟩
    · split
      · exact ⟨rfl, rfl⟩
      · exact ⟨rfl, rfl⟩

/-- The spawn phase keeps the active count at or below the ceiling and the
lane keys distinct. -/
theorem spawnPhase_wf (env : Env) (m1 : AccidentManager) (idx : Int)
    (r : StepRng) (hlen : m1.active.length ≤ m1.max_concurrent)
    (hkeys : uniqKeys m1.active) :
    (spawnPhase env m1 idx r).1.active.length ≤ m1.max_concurrent ∧
    uniqKeys (spawnPhase env m1 idx r).1.active := by
  rw [spawnPhase]
  split
  · exact ⟨hlen, hkeys⟩
  next hceil =>
    split
    · exact ⟨hlen, hkeys⟩
    · split
      · exact ⟨hlen, hkeys⟩
      next lane hget =>
        have hfree : lane ∈ free_lanes m1 := List.get?_mem hget
        have hnot : lane ∉ activeKeys m1.active := by
          rw [free_lanes, List.mem_filter] at hfree
          simpa using hfree.2
        have hla : (applyModeBehavior env m1 m1.mode lane
            { lane_id := lane, start_step := idx, end_step := idx + r.dur,
              prev_max_speed := env.prevSpeed lane,
              prev_allowed := env.prevAllowed lane }).1.lane_id = lane :=
          behavior_keeps_lane env m1 m1.mode lane _
        constructor
        · have hlt : m1.active.length < m1.max_concurrent :=
            Nat.lt_of_not_le hceil
          simpa using hlt
        · rw [uniqKeys, activeKeys] at hkeys ⊢
          rw [List.map_append]
          simp only [List.map_cons, List.map_nil, hla]
          rw [List.nodup_append]
          refine ⟨hkeys, List.nodup_singleton lane, ?_⟩
          intro x hx hx2
          rw [List.mem_singleton] at hx2
          subst hx2
          exact hnot hx

/-- One `step()` call preserves the invariant and the configuration. -/
theorem step_preserves_inv (env : Env) (m : AccidentManager) (idx : Int)
    (r : StepRng) (hlen : m.active.length ≤ m.max_concurrent)
    (hkeys : uniqKeys m.active) :
    (AccidentManager.step env m idx r).1.max_concurrent = m.max_concurrent ∧
    (AccidentManager.step env m idx r).1.active.length ≤ m.max_concurrent ∧
    uniqKeys (AccidentManager.step env m idx r).1.active := by
  rw [AccidentManager.step]
  have hsub := expirePhase_sublist env m.mode m.active idx
  have hlen1 : (expirePhase env m.mode m.active idx).1.length ≤ m.max_concurrent :=
    le_trans hsub.length_le hlen
  have hkeys1 : uniqKeys (expirePhase env m.mode m.active idx).1 :=
    List.Nodup.sublist (List.Sublist.map (fun a : Accident => a.lane_id) hsub) hkeys
  have hw := spawnPhase_wf env
    { m with active := (expirePhase env m.mode m.active idx).1 } idx r hlen1 hkeys1
  have hf := spawnPhase_fields env
    { m with active := (expirePhase env m.mode m.active idx).1 } idx r
  exact ⟨hf.2, hw.1, hw.2⟩

/-- One non-overriding `create_accident_at` call preserves the invariant and
the configuration. -/
theorem create_preserves_inv (env : Env) (m : AccidentManager) (lane : String)
    (dur : Option Int) (pos : Option ℚ) (mode : Option String) (rngDur : Int)
    (hlen : m.active.length ≤ m.max_concurrent) (hkeys : uniqKeys m.active) :
    (create_accident_at env m lane dur pos mode false rngDur).1.max_concurrent
        = m.max_concurrent ∧
    (create_accident_at env m lane dur pos mode false rngDur).1.active.length
        ≤ m.max_concurrent ∧
    uniqKeys (create_accident_at env m lane dur pos mode false rngDur).1.active := by
  simp only [create_accident_at]
  split
  · exact ⟨rfl, hlen, hkeys⟩
  · split
    · exact ⟨rfl, hlen, hkeys⟩
    · split
      · exact ⟨rfl, hlen, hkeys⟩
      · split
        · exact ⟨rfl, hlen, hkeys⟩
        next hceil =>
          split
          · exact ⟨rfl, hlen, hkeys⟩
          next hmem =>
            have hnot : lane ∉ activeKeys m.active := by
              intro hx
              exact hmem (by simpa using hx)
            have hlt : m.active.length < m.max_concurrent := by
              rcases Nat.lt_or_ge m.active.length m.max_concurrent with h | h
              · exact h
              · exact absurd ⟨by simp, h⟩ hceil
            have hla : ∀ acc0 : Accident,
                (applyModeBehavior env m (pyLower (mode.getD m.mode)) lane acc0).1.lane_id
                  = acc0.lane_id := fun acc0 =>
              behavior_keeps_lane env m _ lane acc0
            split
            · constructor
              · rfl
              · constructor
                · simpa using hlt
                · rw [uniqKeys, activeKeys] at hkeys ⊢
                  rw [List.map_append]
                  simp only [List.map_cons, List.map_nil, hla]
                  rw [List.nodup_append]
                  refine ⟨hkeys, List.nodup_singleton lane, ?_⟩
                  intro x hx hx2
                  rw [List.mem_singleton] at hx2
                  subst hx2
                  exact hnot hx
            · exact ⟨rfl, hlen, hkeys⟩

/-- Per-operation preservation, packaged for the induction. -/
theorem runOp_preserves_inv (env : Env) (m : AccidentManager) (op : Op)
    (hlen : m.active.length ≤ m.max_concurrent) (hkeys : uniqKeys m.active) :
    (runOp env m op).max_concurrent = m.max_concurrent ∧
    (runOp env m op).active.length ≤ m.max_concurrent ∧
    uniqKeys (runOp env m op).active := by
  cases op with
  | stepOp idx r => exact step_preserves_inv env m idx r hlen hkeys
  | createOp lane dur pos mode rngDur =>
      exact create_preserves_inv env m lane dur pos mode rngDur hlen hkeys

/-- C4: starting from an empty active set, any interleaving of `step()` ticks
and non-overriding `create_accident_at` calls keeps the active count at or
below `max_concurrent` and never holds two accidents for one lane id. -/
theorem c4_concurrency_ceiling (env : Env) (m0 : AccidentManager)
    (ops : List Op) (h0 : m0.active = []) :
    (runOps env m0 ops).active.length ≤ m0.max_concurrent ∧
    uniqKeys (runOps env m0 ops).active := by
  suffices h : ∀ (ops : List Op) (m : AccidentManager),
      m.active.length ≤ m.max_concurrent → uniqKeys m.active →
      (runOps env m ops).max_concurrent = m.max_concurrent ∧
      (runOps env m ops).active.length ≤ m.max_concurrent ∧
      uniqKeys (runOps env m ops).active by
    have := h ops m0 (by rw [h0]; exact Nat.zero_le _) (by rw [h0]; exact List.nodup_nil)
    exact ⟨this.2.1, this.2.2⟩
  intro ops
  induction ops with
  | nil => intro m hlen hkeys; exact ⟨rfl, hlen, hkeys⟩
  | cons op rest ih =>
      intro m hlen hkeys
      obtain ⟨hN, hlen2, hkeys2⟩ := runOp_preserves_inv env m op hlen hkeys
      have := ih (runOp env m op) (by rw [hN]; exact hlen2) hkeys2
      rw [runOps, List.foldl_cons]
      refine ⟨?_, ?_, ?_⟩
      · rw [show (rest.foldl (runOp env) (runOp env m op)) = runOps env (runOp env m op) rest from rfl]
        rw [this.1, hN]
      · rw [show (rest.foldl (runOp env) (runOp env m op)) = runOps env (runOp env m op) rest from rfl]
        rw [← hN]
        exact this.2.1
      · exact this.2.2

/-- C4 witness: from an empty manager, a create followed by a step stays
within the ceiling. -/
theorem c4_concurrency_witness :
    (runOps envW mgrEmpty
        [Op.createOp laneW none none none 10, Op.stepOp 0 rngW]).active.length
      ≤ mgrEmpty.max_concurrent :=
  (c4_concurrency_ceiling envW mgrEmpty
    [Op.createOp laneW none none none 10, Op.stepOp 0 rngW] rfl).1

/-! ### C3: accident expiry timing -/

/-- A restore-of-lane effect is a restore effect. -/
theorem isRestoreOfLane_isRestore (l : String) (e : Effect)
    (h : isRestoreOfLane l e = true) : isRestoreEffect e = true := by
  cases e <;> simp [isRestoreOfLane, isRestoreEffect] at h ⊢

/-- If a cleanup-block effect restores lane `l`, then `l` is the cleaned
accident's lane. -/
theorem cleanup_restore_lane (env : Env) (mode : String) (b : Accident)
    (l : String) (e : Effect) (he : e ∈ cleanupEffects env mode b)
    (hr : isRestoreOfLane l e = true) : l = b.lane_id := by
  rw [cleanupEffects] at he
  rcases List.mem_append.mp he with h | h
  · split at h
    · rw [restore_lane_state] at h
      split at h
      · rw [List.mem_singleton] at h
        subst h
        have hb : b.lane_id = l := by simpa [isRestoreOfLane] using hr
        exact hb.symm
      · simp at h
    · split at h
      · cases hveh : b.obstacle_veh_id with
        | none => rw [hveh] at h; simp at h
        | some v =>
            rw [hveh] at h
            have := despawn_no_restore env v e h
            rw [isRestoreOfLane_isRestore l e hr] at this
            exact absurd this (by simp)
      · simp at h
  · have := remove_marker_no_restore env b.marker_poi_id e h
    rw [isRestoreOfLane_isRestore l e hr] at this
    exact absurd this (by simp)

/-- The spawn phase keeps every already-active accident active. -/
theorem spawnPhase_keeps (env : Env) (m1 : AccidentManager) (idx : Int)
    (r : StepRng) (acc : Accident) (hmem : acc ∈ m1.active) :
    acc ∈ (spawnPhase env m1 idx r).1.active := by
  rw [spawnPhase]
  split
  · exact hmem
  · split
    · exact hmem
    · split
      · exact hmem
      · exact List.mem_append_left _ hmem

/-- A `step()` at an index before the accident's end keeps it active. -/
theorem step_keeps_unexpired (env : Env) (m : AccidentManager) (idx : Int)
    (r : StepRng) (acc : Accident) (hmem : acc ∈ m.active)
    (hidx : idx < acc.end_step) :
    acc ∈ (AccidentManager.step env m idx r).1.active := by
  rw [AccidentManager.step]
  apply spawnPhase_keeps
  rw [expirePhase, List.mem_filter]
  exact ⟨hmem, by simpa using Int.not_le.mpr hidx⟩

/-- The spawn phase preserves key uniqueness. -/
theorem spawnPhase_uniq (env : Env) (m1 : AccidentManager) (idx : Int)
    (r : StepRng) (hkeys : uniqKeys m1.active) :
    uniqKeys (spawnPhase env m1 idx r).1.active := by
  rw [spawnPhase]
  split
  · exact hkeys
  · split
    · exact hkeys
    · split
      · exact hkeys
      next lane hget =>
        have hfree : lane ∈ free_lanes m1 := List.get?_mem hget
        have hnot : lane ∉ activeKeys m1.active := by
          rw [free_lanes, List.mem_filter] at hfree
          simpa using hfree.2
        have hla : (applyModeBehavior env m1 m1.mode lane
            { lane_id := lane, start_step := idx, end_step := idx + r.dur,
              prev_max_speed := env.prevSpeed lane,
              prev_allowed := env.prevAllowed lane }).1.lane_id = lane :=
          behavior_keeps_lane env m1 m1.mode lane _
        rw [uniqKeys, activeKeys] at hkeys ⊢
        rw [List.map_append]
        simp only [List.map_cons, List.map_nil, hla]
        rw [List.nodup_append]
        refine ⟨hkeys, List.nodup_singleton lane, ?_⟩
        intro x hx hx2
        rw [List.mem_singleton] at hx2
        subst hx2
        exact hnot hx

/-- One `step()` preserves key uniqueness and the configured mode. -/
theorem step_uniq_mode (env : Env) (m : AccidentManager) (idx : Int)
    (r : StepRng) (hkeys : uniqKeys m.active) :
    uniqKeys (AccidentManager.step env m idx r).1.active ∧
    (AccidentManager.step env m idx r).1.mode = m.mode := by
  rw [AccidentManager.step]
  have hkeys1 : uniqKeys (expirePhase env m.mode m.active idx).1 :=
    List.Nodup.sublist
      (List.Sublist.map (fun a : Accident => a.lane_id)
        (expirePhase_sublist env m.mode m.active idx)) hkeys
  exact ⟨spawnPhase_uniq env _ idx r hkeys1,
    (spawnPhase_fields env _ idx r).1⟩

/-- A `step()` before an active accident's end never restores that
accident's lane. -/
theorem step_no_restoreOfLane (env : Env) (m : AccidentManager) (idx : Int)
    (r : StepRng) (acc : Accident) (hmem : acc ∈ m.active)
    (hidx : idx < acc.end_step) (hkeys : uniqKeys m.active) :
    (AccidentManager.step env m idx r).2.filter (isRestoreOfLane acc.lane_id)
      = [] := by
  rw [List.filter_eq_nil_iff]
  intro e he hr
  simp only [AccidentManager.step, List.mem_append] at he
  rcases he with h | h
  · rw [expirePhase] at h
    obtain ⟨b, hb, hmemb⟩ := List.mem_flatMap.mp h
    rw [List.mem_filter] at hb
    have hlaneeq : acc.lane_id = b.lane_id :=
      cleanup_restore_lane env m.mode b acc.lane_id e hmemb hr
    have hacc : acc = b :=
      List.inj_on_of_nodup_map hkeys hmem hb.1 hlaneeq
    have hend : b.end_step ≤ idx := by simpa using hb.2
    rw [← hacc] at hend
    exact absurd hend (Int.not_le.mpr hidx)
  · obtain ⟨lane, acc2, hmem2⟩ := spawn_effects_from_behavior env _ idx r e h
    have := behavior_no_restore env _ _ lane acc2 e hmem2
    rw [isRestoreOfLane_isRestore acc.lane_id e hr] at this
    exact absurd this (by simp)

/-- A despawn-of-vehicle effect inside the cleanup block names the cleaned
accident's obstacle vehicle. -/
theorem cleanup_despawn_veh (env : Env) (mode : String) (b : Accident)
    (v : String) (e : Effect) (he : e ∈ cleanupEffects env mode b)
    (hd : isDespawnOf v e = true) : b.obstacle_veh_id = some v := by
  rw [cleanupEffects] at he
  rcases List.mem_append.mp he with h | h
  · split at h
    · rw [restore_lane_state] at h
      split at h
      · rw [List.mem_singleton] at h
        subst h
        simp [isDespawnOf] at hd
      · simp at h
    · split at h
      · cases hveh : b.obstacle_veh_id with
        | none => rw [hveh] at h; simp at h
        | some v2 =>
            rw [hveh] at h
            have h2 : e ∈ despawn_obstacle env v2 := h
            rw [despawn_obstacle] at h2
            split at h2
            · rw [List.mem_singleton] at h2
              subst h2
              have hv : v2 = v := by simpa [isDespawnOf] using hd
              rw [hv]
            · simp at h2
      · simp at h
  · exfalso
    rcases hmp : b.marker_poi_id with _ | p
    · rw [hmp] at h; simp [remove_marker] at h
    · rw [hmp, remove_marker] at h
      split at h
      · simp at h
      · split at h
        · rw [List.mem_singleton] at h
          subst h
          simp [isDespawnOf] at hd
        · simp at h

/-- The mode-behavior dispatch (spawn paths) never despawns a vehicle. -/
theorem behavior_no_despawn (env : Env) (m : AccidentManager) (um lane : String)
    (acc : Accident) (v : String) :
    ∀ e ∈ (applyModeBehavior env m um lane acc).2, isDespawnOf v e = false := by
  intro e he
  rw [applyModeBehavior] at he
  have hblock : ∀ x ∈ apply_lane_block env lane, isDespawnOf v x = false := by
    intro x hx
    rw [apply_lane_block] at hx
    split at hx
    · rw [List.mem_singleton] at hx
      subst hx
      rfl
    · simp at hx
  have hmark : ∀ x ∈ (add_marker env m lane).2, isDespawnOf v x = false := by
    intro x hx
    rw [add_marker] at hx
    split at hx
    · split at hx
      · simp at hx
      · rw [List.mem_singleton] at hx
        subst hx
        rfl
    · simp at hx
  split at he
  · rcases List.mem_append.mp he with h | h
    · exact hblock e h
    · exact hmark e h
  · split at he
    · split at he
      · rcases List.mem_append.mp he with h | h
        · rw [List.mem_singleton] at h
          subst h
          rfl
        · exact hmark e h
      · rcases List.mem_append.mp he with h | h
        · exact hblock e h
        · exact hmark e h
    · simp at he

/-- A successfully spawned obstacle's vehicle id is the environment's id for
the lane. -/
theorem spawn_obstacle_veh (env : Env) (lane : String)
    (r : String × Option String × ℚ × Nat) (h : spawn_obstacle env lane = some r) :
    r.1 = env.obstacleVehId lane := by
  rw [spawn_obstacle] at h
  split at h
  · rw [Option.some_inj] at h
    rw [← h]
  · exact absurd h (by simp)

/-- The obstacle-vehicle id of a freshly created accident record is either
absent (lane block, or obstacle fallback) or the environment's vehicle id
for the spawn lane. -/
theorem behavior_veh_options (env : Env) (m : AccidentManager) (um lane : String)
    (acc : Accident) (h0 : acc.obstacle_veh_id = none) :
    (applyModeBehavior env m um lane acc).1.obstacle_veh_id = none ∨
    (applyModeBehavior env m um lane acc).1.obstacle_veh_id
      = some (env.obstacleVehId lane) := by
  rw [applyModeBehavior]
  split
  · left; exact h0
  · split
    · split
      next r hr =>
        right
        simp only []
        rw [spawn_obstacle_veh env lane r hr]
      · left; exact h0
    · left; exact h0

/-- The vehicle-uniqueness invariant: only an accident on `acc`'s own lane
may carry `acc`'s obstacle vehicle. -/
def vehInv (acc : Accident) (m : AccidentManager) : Prop :=
  ∀ b ∈ m.active, ∀ v, acc.obstacle_veh_id = some v →
    b.obstacle_veh_id = some v → b.lane_id = acc.lane_id

/-- One `step()` before `acc`'s end preserves the vehicle-uniqueness
invariant, provided the environment never reuses `acc`'s vehicle id. -/
theorem step_preserves_vehinv (env : Env) (m : AccidentManager) (idx : Int)
    (r : StepRng) (acc : Accident)
    (henv : ∀ lane v, acc.obstacle_veh_id = some v → env.obstacleVehId lane ≠ v)
    (hinv : vehInv acc m) :
    vehInv acc (AccidentManager.step env m idx r).1 := by
  intro b hb v hacc hbv
  rw [AccidentManager.step] at hb
  rw [spawnPhase] at hb
  have hexp : ∀ b2 ∈ (expirePhase env m.mode m.active idx).1,
      b2 ∈ m.active := fun b2 h2 =>
    (expirePhase_sublist env m.mode m.active idx).mem h2
  split at hb
  · exact hinv b (hexp b hb) v hacc hbv
  · split at hb
    · exact hinv b (hexp b hb) v hacc hbv
    · split at hb
      · exact hinv b (hexp b hb) v hacc hbv
      next lane hget =>
        rcases List.mem_append.mp hb with h | h
        · exact hinv b (hexp b h) v hacc hbv
        · rw [List.mem_singleton] at h
          subst h
          rcases behavior_veh_options env _ _ lane
              { lane_id := lane, start_step := idx, end_step := idx + r.dur,
                prev_max_speed := env.prevSpeed lane,
                prev_allowed := env.prevAllowed lane } rfl with hv | hv
          · rw [hv] at hbv
            exact absurd hbv (by simp)
          · rw [hv] at hbv
            rw [Option.some_inj] at hbv
            exact absurd hbv (henv lane v hacc)

/-- A `step()` before an active accident's end never despawns that
accident's obstacle vehicle. -/
theorem step_no_despawnOf (env : Env) (m : AccidentManager) (idx : Int)
    (r : StepRng) (acc : Accident) (v : String)
    (hacc : acc.obstacle_veh_id = some v) (hmem : acc ∈ m.active)
    (hidx : idx < acc.end_step) (hkeys : uniqKeys m.active)
    (hinv : vehInv acc m) :
    (AccidentManager.step env m idx r).2.filter (isDespawnOf v) = [] := by
  rw [List.filter_eq_nil_iff]
  intro e he hd
  simp only [AccidentManager.step, List.mem_append] at he
  rcases he with h | h
  · rw [expirePhase] at h
    obtain ⟨b, hb, hmemb⟩ := List.mem_flatMap.mp h
    rw [List.mem_filter] at hb
    have hbv : b.obstacle_veh_id = some v :=
      cleanup_despawn_veh env m.mode b v e hmemb hd
    have hlane : b.lane_id = acc.lane_id := hinv b hb.1 v hacc hbv
    have hacc2 : b = acc :=
      List.inj_on_of_nodup_map hkeys hb.1 hmem hlane
    have hend : b.end_step ≤ idx := by simpa using hb.2
    rw [hacc2] at hend
    exact absurd hend (Int.not_le.mpr hidx)
  · obtain ⟨lane, acc2, hmem2⟩ := spawn_effects_from_behavior env _ idx r e h
    rw [behavior_no_despawn env _ _ lane acc2 v e hmem2] at hd
    exact absurd hd (by simp)

/-- A `step()` at or past the accident's end emits its full cleanup block
and drops it from the active set in the expiry phase. -/
theorem step_expires (env : Env) (m : AccidentManager) (idx : Int)
    (r : StepRng) (acc : Accident) (hmem : acc ∈ m.active)
    (hidx : acc.end_step ≤ idx) :
    (∀ e ∈ cleanupEffects env m.mode acc,
      e ∈ (AccidentManager.step env m idx r).2) ∧
    acc ∉ (expirePhase env m.mode m.active idx).1 := by
  constructor
  · intro e he
    simp only [AccidentManager.step, List.mem_append]
    left
    rw [expirePhase]
    exact List.mem_flatMap.mpr ⟨acc, List.mem_filter.mpr ⟨hmem, by simpa using hidx⟩, he⟩
  · intro hmem2
    rw [expirePhase, List.mem_filter] at hmem2
    have := hmem2.2
    simp at this
    exact absurd hidx (Int.not_le.mpr this)

/-- Induction core for the expiry-timing claim: as long as every tick index
stays below the accident's `end_step`, the accident stays active, no effect
restores its lane, keys stay unique and the mode is unchanged. -/
theorem c3_aux (env : Env) (acc : Accident)
    (henv : ∀ lane v, acc.obstacle_veh_id = some v → env.obstacleVehId lane ≠ v) :
    ∀ (pre : List (Int × StepRng)) (m0 : AccidentManager),
      acc ∈ m0.active → uniqKeys m0.active → vehInv acc m0 →
      (∀ c ∈ pre, c.1 < acc.end_step) →
      acc ∈ (runSteps env m0 pre).1.active ∧
      (runSteps env m0 pre).2.filter (isRestoreOfLane acc.lane_id) = [] ∧
      (∀ v, acc.obstacle_veh_id = some v →
        (runSteps env m0 pre).2.filter (isDespawnOf v) = []) ∧
      uniqKeys (runSteps env m0 pre).1.active ∧
      (runSteps env m0 pre).1.mode = m0.mode ∧
      vehInv acc (runSteps env m0 pre).1 := by
  intro pre
  induction pre with
  | nil =>
      intro m0 hmem hkeys hvinv _
      exact ⟨hmem, rfl, fun v _ => rfl, hkeys, rfl, hvinv⟩
  | cons c rest ih =>
      intro m0 hmem hkeys hvinv hpre
      have hc : c.1 < acc.end_step := hpre c (List.mem_cons_self c rest)
      have hrest : ∀ d ∈ rest, d.1 < acc.end_step := fun d hd =>
        hpre d (List.mem_cons_of_mem c hd)
      have hmem1 : acc ∈ (AccidentManager.step env m0 c.1 c.2).1.active :=
        step_keeps_unexpired env m0 c.1 c.2 acc hmem hc
      obtain ⟨hkeys1, hmode1⟩ := step_uniq_mode env m0 c.1 c.2 hkeys
      have hvinv1 : vehInv acc (AccidentManager.step env m0 c.1 c.2).1 :=
        step_preserves_vehinv env m0 c.1 c.2 acc henv hvinv
      obtain ⟨ih1, ih2, ih3, ih4, ih5, ih6⟩ :=
        ih (AccidentManager.step env m0 c.1 c.2).1 hmem1 hkeys1 hvinv1 hrest
      refine ⟨ih1, ?_, ?_, ih4, ih5.trans hmode1, ih6⟩
      · rw [runSteps]
        rw [List.filter_append, ih2,
          step_no_restoreOfLane env m0 c.1 c.2 acc hmem hc hkeys]
        rfl
      · intro v hacc
        rw [runSteps]
        rw [List.filter_append, ih3 v hacc,
          step_no_despawnOf env m0 c.1 c.2 acc v hacc hmem hc hkeys hvinv]
        rfl

/-- C3: for non-decreasing `step()` calls, an active accident with recorded
`end_step` stays active (its lane never restored) through every call with
index below `end_step`, and the first call with index `≥ end_step` emits its
cleanup (restore / obstacle despawn, marker removal per the manager's mode)
and drops it from the active set in that call's expiry phase. -/
theorem c3_accident_expiry (env : Env) (m0 : AccidentManager) (acc : Accident)
    (pre : List (Int × StepRng)) (t : Int) (r : StepRng)
    (hmem : acc ∈ m0.active) (hkeys : uniqKeys m0.active)
    (henv : ∀ lane v, acc.obstacle_veh_id = some v → env.obstacleVehId lane ≠ v)
    (hvinv : vehInv acc m0)
    (hpre : ∀ c ∈ pre, c.1 < acc.end_step) (ht : acc.end_step ≤ t) :
    acc ∈ (runSteps env m0 pre).1.active ∧
    (runSteps env m0 pre).2.filter (isRestoreOfLane acc.lane_id) = [] ∧
    (∀ v, acc.obstacle_veh_id = some v →
      (runSteps env m0 pre).2.filter (isDespawnOf v) = []) ∧
    (∀ e ∈ cleanupEffects env m0.mode acc,
      e ∈ (AccidentManager.step env (runSteps env m0 pre).1 t r).2) ∧
    acc ∉ (expirePhase env (runSteps env m0 pre).1.mode
        (runSteps env m0 pre).1.active t).1 := by
  obtain ⟨h1, h2, h3, h4, h5, h6⟩ := c3_aux env acc henv pre m0 hmem hkeys hvinv hpre
  obtain ⟨h7, h8⟩ := step_expires env (runSteps env m0 pre).1 t r acc h1 ht
  refine ⟨h1, h2, h3, ?_, by rw [h5]; exact h8⟩
  intro e he
  exact h7 e (by rw [h5]; exact he)

/-- C3 witness: with `accW` (ending at step 5) active, a tick at step 3
keeps it active; the theorem's hypotheses hold at this concrete input. -/
theorem c3_accident_expiry_witness :
    accW ∈ (runSteps envW mgrLB [((3 : Int), rngW)]).1.active :=
  (c3_accident_expiry envW mgrLB accW [((3 : Int), rngW)] 5 rngW
    (by simp [mgrLB]) (by simp [uniqKeys, activeKeys, mgrLB, accW])
    (by intro lane v hv; simp [accW] at hv)
    (by intro b hb v hv; simp [accW] at hv)
    (by intro c hc; rw [List.mem_singleton] at hc; subst hc; norm_num [accW])
    (by norm_num [accW])).1

/-! ### C2: the interactive session loop performs no decision-making -/

/-- C2: the claim that the interactive session's loop looks up and applies a
frozen agent's action whenever a signal's phase changes is false: the loop
body (lines 346–367 of `start_sim_gui.py`) issues NO `setPhaseDuration`
command for any input, and its output is independent both of the loaded
agents' Q-tables and of the post-step phases (it records the pre-step phase
indices but never compares them with anything).  The concrete part shows a
step at which `tlsW`'s phase changes from 0 to 1 while a trained table
recommends `+30`, yet the body behaves exactly as with an empty table or
with no phase change. -/
theorem c2_gui_no_decision :
    (∀ (env : Env) (world : GuiWorld) (tls_ids : List String)
        (agents : String → List (Int × ℚ)) (queue : List BotCmd)
        (am : Option AccidentManager) (stepIdx : Nat) (r : StepRng),
      ((gui_loop_body env world tls_ids agents queue am stepIdx r).2.1).filter
          isSetPhaseCmd = []) ∧
    worldChg.phaseAfter tlsW ≠ worldChg.phaseBefore tlsW ∧
    gui_loop_body envW worldChg [tlsW] agentsTrained [] (some mgrOB) 2 rngW
      = gui_loop_body envW worldChg [tlsW] agentsEmpty [] (some mgrOB) 2 rngW ∧
    gui_loop_body envW worldChg [tlsW] agentsTrained [] (some mgrOB) 2 rngW
      = gui_loop_body envW worldSame [tlsW] agentsTrained [] (some mgrOB) 2 rngW := by
  refine ⟨?_, ?_, rfl, ?_⟩
  · intro env world tls_ids agents queue am stepIdx r
    rw [List.filter_eq_nil_iff]
    intro c hc
    cases c with
    | setPhaseDuration t d =>
        exfalso
        cases am with
        | none => simp [gui_loop_body] at hc
        | some mgr => simp [gui_loop_body] at hc
    | getPhase t => simp [isSetPhaseCmd]
    | simulationStep => simp [isSetPhaseCmd]
    | getTime => simp [isSetPhaseCmd]
    | accidentEffect e => simp [isSetPhaseCmd]
    | getMinExpectedNumber => simp [isSetPhaseCmd]
  · simp [worldChg]
  · rfl

end SmartSity
